import Mathlib

/-!
Verification of the survival-dataset construction engine of `melody_dummy`
(`src/melody_dummy/survival_functions.py`).

The two functions under study are `create_survival_dataframe` (the Survival
Frame Builder) and `expand_to_monthly` (the Monthly Expansion Engine).  Dates
are modelled as proleptic-Gregorian calendar dates (year, month, day); a
pandas `Timestamp` at day granularity is exactly such a triple, and timestamp
comparison/subtraction is chronological-day comparison/subtraction, which we
realise through a day index `toDays`.  Fallible Python code (assert / raise)
is modelled with `Except String`, the error strings following the source's
messages.  Row iteration (`df.apply`, `df.iterrows`) becomes structural
recursion over lists of rows.
-/

namespace MelodyDummy

/-- A calendar date at whole-day granularity (no time zones, no sub-day
precision), as carried by the date columns of the pandas frames. -/
structure Date where
  year : Nat
  month : Nat
  day : Nat
deriving DecidableEq, Repr

/-- Gregorian leap-year rule (as implemented by pandas/`datetime`). -/
def isLeapYear (y : Nat) : Bool :=
  y % 4 = 0 && (y % 100 ≠ 0 || y % 400 = 0)

/-- Number of days of month `m` (1..12) of year `y`. -/
def daysInMonth (y m : Nat) : Nat :=
  if m = 2 then (if isLeapYear y then 29 else 28)
  else if m = 4 ∨ m = 6 ∨ m = 9 ∨ m = 11 then 30
  else 31

/-- A structurally well-formed calendar date. -/
def Date.valid (d : Date) : Prop :=
  1 ≤ d.month ∧ d.month ≤ 12 ∧ 1 ≤ d.day ∧ d.day ≤ daysInMonth d.year d.month

instance (d : Date) : Decidable d.valid := by
  unfold Date.valid
  infer_instance

/-- Absolute index of a date's calendar month (month 0 = January of year 0).
`pd.date_range(freq = MS)` enumerates consecutive values of this index. -/
def monthIdx (d : Date) : Nat := 12 * d.year + (d.month - 1)

/-- Days of the absolute month `M`. -/
def daysInMonthAbs (M : Nat) : Nat := daysInMonth (M / 12) (M % 12 + 1)

/-- Number of leap years strictly below `y`. -/
def leapCount (y : Nat) : Nat :=
  (y + 3) / 4 - (y + 99) / 100 + (y + 399) / 400

/-- Day index of January 1 of year `y` (day 0 = Jan 1 of year 0). -/
def daysBeforeYear (y : Nat) : Nat := 365 * y + leapCount y

/-- Days of year `y` before its month of in-year index `m` (0 = January). -/
def monthOffset (y m : Nat) : Nat :=
  let f := if isLeapYear y then 1 else 0
  if m = 0 then 0 else if m = 1 then 31 else if m = 2 then 59 + f
  else if m = 3 then 90 + f else if m = 4 then 120 + f
  else if m = 5 then 151 + f else if m = 6 then 181 + f
  else if m = 7 then 212 + f else if m = 8 then 243 + f
  else if m = 9 then 273 + f else if m = 10 then 304 + f
  else 334 + f

/-- Day index of the first day of absolute month `M` (day 0 = Jan 1 of
year 0): total number of days in all earlier months.  Written in closed
form so that it evaluates in constant time; `monthStartDays_succ` below
recovers the defining recurrence. -/
def monthStartDays (M : Nat) : Nat :=
  daysBeforeYear (M / 12) + monthOffset (M / 12) (M % 12)

/-- Chronological day index of a date; timestamp subtraction
`(b - a).days` is `toDays b - toDays a`, and timestamp order is
`toDays` order. -/
def toDays (d : Date) : Nat := monthStartDays (monthIdx d) + (d.day - 1)

/-! ## Monthly Expansion Engine (`expand_to_monthly`) -/

/-- The absolute month indices enumerated by
`pd.date_range(start = start_month, end = end_month, freq = MS)`:
all month starts from month `a` through month `b` inclusive
(empty when `a > b`). -/
def monthRange (a b : Nat) : List Nat :=
  (List.range (b + 1 - a)).map (fun k => a + k)

/-- Days contributed by the row `[start_date = s, end_date = e]` to the
enumerated month `M`, as computed by the loop body of `expand_to_monthly`
(lines 124-142).  The source assigns `contributed_days` sequentially
(default full month, then the start-month adjustment, then the end-month
adjustment, then the defensive zero for a month starting after `end_date`);
later assignments override earlier ones, which collapses to this cascade
read bottom-up.  The value is an integer because the Python day arithmetic
can go negative on malformed rows. -/
def contributedDays (s e : Date) (M : Nat) : Int :=
  if toDays e < monthStartDays M then 0
  else if M = monthIdx e then
    (if M = monthIdx s then (e.day : Int) - (s.day : Int) + 1 else (e.day : Int))
  else if M = monthIdx s then
    (daysInMonthAbs M : Int) - (s.day : Int) + 1
  else (daysInMonthAbs M : Int)

/-- `date.strftime(s)` month abbreviation for month number `m` (1..12). -/
def monthAbbrev (m : Nat) : String :=
  if m = 1 then "Jan" else if m = 2 then "Feb" else if m = 3 then "Mar"
  else if m = 4 then "Apr" else if m = 5 then "May" else if m = 6 then "Jun"
  else if m = 7 then "Jul" else if m = 8 then "Aug" else if m = 9 then "Sep"
  else if m = 10 then "Oct" else if m = 11 then "Nov" else "Dec"

/-- Zero-padded two-digit year, as `strftime` renders a year with the
2-digit format code. -/
def twoDigitYear (y : Nat) : String :=
  (if y % 100 < 10 then "0" else "") ++ toString (y % 100)

/-- The month label `date.strftime` produces at line 148
(month abbreviation, dash, two-digit year) for absolute month `M`. -/
def monthLabel (M : Nat) : String :=
  monthAbbrev (M % 12 + 1) ++ "-" ++ twoDigitYear (M / 12)

/-- One row of the survival frame consumed by `expand_to_monthly`:
identifier, `start_date`, `end_date` and passthrough columns. -/
structure SurvRow where
  id : Nat
  start_date : Date
  end_date : Date
  extras : List (String × String)
deriving DecidableEq, Repr

/-- One dict appended to `monthly_records` (lines 144-156). -/
structure MonthlyRecord where
  id : Nat
  start_date : Date
  end_date : Date
  month : String
  time : Int
  extras : List (String × String)
deriving DecidableEq, Repr

/-- The records the inner `for date in date_range` loop emits for one survival
row.  `cols` is `additional_columns`; the `if additional_columns` guard at
line 152 is falsy for `None` and for the empty list. -/
def rowRecords (cols : Option (List String)) (r : SurvRow) : List MonthlyRecord :=
  (monthRange (monthIdx r.start_date) (monthIdx r.end_date)).map fun M =>
    { id := r.id
      start_date := r.start_date
      end_date := r.end_date
      month := monthLabel M
      time := contributedDays r.start_date r.end_date M
      extras :=
        match cols with
        | some cs =>
            if cs.isEmpty then []
            else cs.map fun c => (c, ((r.extras.lookup c).getD ""))
        | none => [] }

/-- `monthly_records` accumulated over `df_survival.iterrows()`
(lines 118-156): the per-row record lists concatenated in input order. -/
def monthlyRecords (cols : Option (List String)) : List SurvRow → List MonthlyRecord
  | [] => []
  | r :: rs => rowRecords cols r ++ monthlyRecords cols rs

/-- `expand_to_monthly` (lines 96-176).  After building `monthly_records`,
the source: (1) reorders columns with `[id_column, *additional_columns,
end_date_column, month, time]` — unpacking `*None` raises a `TypeError`,
and selecting named columns from the empty, column-less frame raises a
`KeyError`; (2) asserts `time.max() <= 31` and `time.min() >= 1`;
(3) under Python truthiness of `time_checksum`, asserts
`time.sum() != time_checksum` — note the inverted comparison, reproduced
faithfully here: the assertion FAILS exactly when the computed sum equals
the supplied checksum.  The reorder's dropping of the `start_date` column
is bookkeeping not affecting any record's id, month or time and is not
modelled. -/
def expand_to_monthly (rows : List SurvRow) (cols : Option (List String))
    (time_checksum : Option Int) : Except String (List MonthlyRecord) :=
  let recs := monthlyRecords cols rows
  match cols with
  | none => .error "TypeError: argument of type NoneType is not iterable"
  | some _ =>
    if recs.isEmpty then .error "KeyError: missing output columns"
    else if recs.any fun rec => decide (31 < rec.time) then
      .error "Process failure: Invalid Time exceeding 31 days"
    else if recs.any fun rec => decide (rec.time < 1) then
      .error "Process failure: Invalid Time of less than 1 days"
    else
      if time_checksum.getD 0 ≠ 0 then
        if (recs.map fun rec => rec.time).sum = time_checksum.getD 0 then
          .error "Process failure: Checksum"
        else .ok recs
      else .ok recs

/-! ## Survival Frame Builder (`create_survival_dataframe`) -/

/-- One input row: identifier, start of observation, the three optional
terminal dates (already parsed by `pd.to_datetime`; a missing value is a
`NaT` handled by `pd.isna`, modelled as `none`), and passthrough columns. -/
structure RawRow where
  id : Nat
  start : Date
  primary : Option Date
  competing : Option Date
  censor : Option Date
  extras : List (String × String)
deriving DecidableEq, Repr

/-- The `events` dict of `determine_end_date` after the `pd.isna` filter
(lines 49-56): insertion-ordered key/date pairs for the dates that are
present. -/
def mkEvents (primary competing censor : Option Date) : List (String × Date) :=
  (match primary with | some d => [("primary", d)] | none => []) ++
  (match competing with | some d => [("competing", d)] | none => []) ++
  (match censor with | some d => [("censor", d)] | none => [])

/-- Python `min` over a list of timestamps: left fold keeping the current
value unless a strictly earlier one appears; `none` on the empty list
(where Python would raise). -/
def pyMinDates : List Date → Option Date
  | [] => none
  | x :: xs =>
      some (xs.foldl (fun acc d => if toDays d < toDays acc then d else acc) x)

/-- `determine_end_date` (lines 48-67): filter the absent dates out of the
events dict; raise on an empty dict; when both `primary` and `competing`
are present, `pop` the non-authoritative one under the `primary` /
`competing` priorities; return the minimum surviving date. -/
def determine_end_date (end_event_priority : String)
    (primary competing censor : Option Date) : Except String Date :=
  let events := mkEvents primary competing censor
  if events.isEmpty then
    .error "Row with no primary, competing or censor date found"
  else
    let events :=
      if (events.any fun kv => kv.1 = "primary") &&
          (events.any fun kv => kv.1 = "competing") then
        if end_event_priority = "primary" then
          events.filter fun kv => kv.1 ≠ "competing"
        else if end_event_priority = "competing" then
          events.filter fun kv => kv.1 ≠ "primary"
        else events
      else events
    match pyMinDates (events.map fun kv => kv.2) with
    | some d => .ok d
    | none => .error "ValueError: min() arg is an empty sequence"

/-- `df.apply(determine_end_date, axis = 1)` (line 69): row-wise application
that propagates the first raised exception. -/
def dfApply (f : RawRow → Except String Date) :
    List RawRow → Except String (List Date)
  | [] => .ok []
  | r :: rs =>
    match f r with
    | .error e => .error e
    | .ok d =>
      match dfApply f rs with
      | .error e => .error e
      | .ok ds => .ok (d :: ds)

/-- One output row of the Builder, with the columns selected at lines 87-93:
identifier, the requested additional columns, the date columns, the computed
`end_date` and `time_at_risk = (end_date - start_date).dt.days`. -/
structure SurvRecord where
  id : Nat
  extras : List (String × String)
  start_date : Date
  primary_event_date : Option Date
  competing_event_date : Option Date
  censor_date : Option Date
  end_date : Date
  time_at_risk : Int
deriving DecidableEq, Repr

/-- Assembly of one output row from an input row and its computed end date. -/
def buildRecord (acols : List String) (r : RawRow) (e : Date) : SurvRecord :=
  { id := r.id
    extras := acols.map fun c => (c, ((r.extras.lookup c).getD ""))
    start_date := r.start
    primary_event_date := r.primary
    competing_event_date := r.competing
    censor_date := r.censor
    end_date := e
    time_at_risk := (toDays e : Int) - (toDays r.start : Int) }

/-- `create_survival_dataframe` (lines 5-93): assert the priority argument;
compute `end_date` for every row via `df.apply`; assert no end date is
missing (always true here, every successful `determine_end_date` returns a
date); assert `(end_date >= start_date).all()`; add `time_at_risk`; select
the output columns (with `additional_columns` defaulting to the empty
list when falsy). -/
def create_survival_dataframe (end_event_priority : String)
    (additional_columns : Option (List String)) (rows : List RawRow) :
    Except String (List SurvRecord) :=
  if end_event_priority ∈ (["first", "competing", "primary"] : List String) then
    match dfApply
        (fun r => determine_end_date end_event_priority
          r.primary r.competing r.censor) rows with
    | .error e => .error e
    | .ok ends =>
      if (rows.zip ends).any fun q => decide (toDays q.2 < toDays q.1.start) then
        .error "Error calculating end dates: End dates before start"
      else
        let acols := match additional_columns with | none => [] | some cs => cs
        .ok ((rows.zip ends).map fun q => buildRecord acols q.1 q.2)
  else .error ("Unexpected argument " ++ end_event_priority)

/-! ## Heap model for the Builder's frame effect

The source receives `df_in` and immediately takes a deep copy (line 28,
`df = df_in.copy(deep = True)`); every later column assignment mutates the
copy.  We model the object store explicitly: a heap of references to frames,
the copy as an allocation at a fresh reference, and the column assignments
as writes to that reference. -/

/-- A pandas frame as stored in the heap: either still the raw input frame
or the fully built survival frame. -/
inductive Frame
  | raw (rows : List RawRow)
  | built (rows : List SurvRecord)
deriving DecidableEq

/-- Store of allocated frames, keyed by reference. -/
def Heap := List (Nat × Frame)

/-- Read a reference. -/
def heapGet : Heap → Nat → Option Frame
  | [], _ => none
  | (k, v) :: h, r => if k = r then some v else heapGet h r

/-- In-place update of an existing reference (appends when absent). -/
def heapSet : Heap → Nat → Frame → Heap
  | [], r, v => [(r, v)]
  | (k, w) :: h, r, v =>
      if k = r then (k, v) :: h else (k, w) :: heapSet h r v

/-- The allocated references. -/
def heapKeys (h : Heap) : List Nat := h.map fun kv => kv.1

/-- A reference not yet allocated in `h`. -/
def freshRef (h : Heap) : Nat := (heapKeys h).foldr max 0 + 1

/-- `create_survival_dataframe` as a state transformer on the heap: read
`df_in`, allocate the deep copy at a fresh reference (line 28), perform the
whole computation through writes to that reference only, and return the
resulting frame.  On an exception the heap keeps the working copy as last
written; the caller's reference is never written. -/
def create_survival_stateful (h : Heap) (refIn : Nat)
    (end_event_priority : String) (additional_columns : Option (List String)) :
    Heap × Except String (List SurvRecord) :=
  match heapGet h refIn with
  | some (Frame.raw dfIn) =>
    let r := freshRef h
    let h1 := heapSet h r (Frame.raw dfIn)
    match create_survival_dataframe end_event_priority additional_columns dfIn with
    | .error e => (h1, .error e)
    | .ok out => (heapSet h1 r (Frame.built out), .ok out)
  | _ => (h, .error "TypeError: df_in is not a DataFrame")

/-! ## Calendar arithmetic lemmas -/

lemma daysInMonthAbs_bounds (M : Nat) :
    28 ≤ daysInMonthAbs M ∧ daysInMonthAbs M ≤ 31 := by
  unfold daysInMonthAbs daysInMonth
  split
  · split <;> omega
  · split <;> omega

lemma isLeapYear_iff (y : Nat) :
    isLeapYear y = true ↔ (y % 4 = 0 ∧ (y % 100 ≠ 0 ∨ y % 400 = 0)) := by
  unfold isLeapYear
  simp [Bool.and_eq_true, Bool.or_eq_true, decide_eq_true_eq]

lemma leapCount_succ (y : Nat) :
    leapCount (y + 1) = leapCount y + (if isLeapYear y then 1 else 0) := by
  by_cases h : isLeapYear y = true
  · rw [if_pos h]
    rw [isLeapYear_iff] at h
    unfold leapCount
    omega
  · rw [if_neg h]
    rw [isLeapYear_iff] at h
    push_neg at h
    unfold leapCount
    by_cases h4 : y % 4 = 0
    · have h100 := (h h4).1
      have h400 := (h h4).2
      omega
    · omega

lemma monthOffset_succ (y m : Nat) (h : m < 11) :
    monthOffset y (m + 1) = monthOffset y m + daysInMonth y (m + 1) := by
  have hcase : m = 0 ∨ m = 1 ∨ m = 2 ∨ m = 3 ∨ m = 4 ∨ m = 5 ∨ m = 6 ∨
      m = 7 ∨ m = 8 ∨ m = 9 ∨ m = 10 := by omega
  rcases hcase with h | h | h | h | h | h | h | h | h | h | h <;> subst h <;>
    cases hf : isLeapYear y <;> simp [monthOffset, daysInMonth, hf]

lemma monthStartDays_succ (M : Nat) :
    monthStartDays (M + 1) = monthStartDays M + daysInMonthAbs M := by
  unfold monthStartDays daysInMonthAbs
  rcases Nat.lt_or_ge (M % 12) 11 with hm | hm
  · have hdiv : (M + 1) / 12 = M / 12 := by omega
    have hmod : (M + 1) % 12 = M % 12 + 1 := by omega
    rw [hdiv, hmod, monthOffset_succ (M / 12) (M % 12) hm]
    omega
  · have hm11 : M % 12 = 11 := by omega
    have hdiv : (M + 1) / 12 = M / 12 + 1 := by omega
    have hmod : (M + 1) % 12 = 0 := by omega
    rw [hdiv, hmod, hm11]
    unfold daysBeforeYear
    rw [leapCount_succ]
    cases hf : isLeapYear (M / 12) <;>
      simp [monthOffset, daysInMonth, hf] <;> omega

lemma monthStartDays_le_add (a k : Nat) :
    monthStartDays a ≤ monthStartDays (a + k) := by
  induction k with
  | zero => exact Nat.le_refl _
  | succ n ih =>
    have h : monthStartDays (a + n + 1) =
        monthStartDays (a + n) + daysInMonthAbs (a + n) :=
      monthStartDays_succ (a + n)
    calc monthStartDays a ≤ monthStartDays (a + n) := ih
      _ ≤ monthStartDays (a + n + 1) := by omega

lemma monthStartDays_mono {a b : Nat} (h : a ≤ b) :
    monthStartDays a ≤ monthStartDays b := by
  obtain ⟨k, rfl⟩ := Nat.le.dest h
  exact monthStartDays_le_add a k

lemma daysInMonthAbs_monthIdx (d : Date) (hd : d.valid) :
    daysInMonthAbs (monthIdx d) = daysInMonth d.year d.month := by
  obtain ⟨h1, h2, _, _⟩ := hd
  unfold daysInMonthAbs monthIdx
  have hdiv : (12 * d.year + (d.month - 1)) / 12 = d.year := by omega
  have hmod : (12 * d.year + (d.month - 1)) % 12 = d.month - 1 := by omega
  rw [hdiv, hmod]
  congr 1
  omega

lemma toDays_bounds (d : Date) (hd : d.valid) :
    monthStartDays (monthIdx d) ≤ toDays d ∧
      toDays d < monthStartDays (monthIdx d + 1) := by
  have h4 : d.day ≤ daysInMonthAbs (monthIdx d) := by
    rw [daysInMonthAbs_monthIdx d hd]
    exact hd.2.2.2
  have hs := monthStartDays_succ (monthIdx d)
  have h3 := hd.2.2.1
  unfold toDays
  omega

lemma monthIdx_le_of_toDays_le (s e : Date) (hs : s.valid) (he : e.valid)
    (h : toDays s ≤ toDays e) : monthIdx s ≤ monthIdx e := by
  by_contra hc
  push_neg at hc
  have h1 := (toDays_bounds s hs).1
  have h2 := (toDays_bounds e he).2
  have h3 : monthStartDays (monthIdx e + 1) ≤ monthStartDays (monthIdx s) :=
    monthStartDays_mono hc
  omega

/-! ## Month-range and contributed-days lemmas -/

lemma toDays_cast (d : Date) (hd : d.valid) :
    (toDays d : Int) = (monthStartDays (monthIdx d) : Int) + (d.day : Int) - 1 := by
  have h3 := hd.2.2.1
  unfold toDays
  omega

lemma monthRange_self (a : Nat) : monthRange a a = [a] := by
  unfold monthRange
  have h : a + 1 - a = 1 := by omega
  rw [h]
  rfl

lemma monthRange_succ (a b : Nat) (h : a ≤ b + 1) :
    monthRange a (b + 1) = monthRange a b ++ [b + 1] := by
  unfold monthRange
  have h2 : b + 1 + 1 - a = (b + 1 - a) + 1 := by omega
  rw [h2, List.range_succ, List.map_append]
  simp only [List.map_cons, List.map_nil]
  have h3 : a + (b + 1 - a) = b + 1 := by omega
  rw [h3]

lemma mem_monthRange {a b M : Nat} : M ∈ monthRange a b ↔ a ≤ M ∧ M ≤ b := by
  unfold monthRange
  simp only [List.mem_map, List.mem_range]
  constructor
  · rintro ⟨k, hk, rfl⟩
    omega
  · rintro ⟨h1, h2⟩
    exact ⟨M - a, by omega, by omega⟩

lemma no_zero_branch (s e : Date) (he : e.valid) {M : Nat}
    (hM : M ≤ monthIdx e) : ¬ (toDays e < monthStartDays M) := by
  have h1 := monthStartDays_mono hM
  have h2 := (toDays_bounds e he).1
  omega

lemma contributedDays_middle (s e : Date) (he : e.valid) {M : Nat}
    (hMe : M ≤ monthIdx e) (h1 : M ≠ monthIdx e) (h2 : M ≠ monthIdx s) :
    contributedDays s e M = (daysInMonthAbs M : Int) := by
  unfold contributedDays
  rw [if_neg (no_zero_branch s e he hMe), if_neg h1, if_neg h2]

lemma contributedDays_start (s e : Date) (he : e.valid) {M : Nat}
    (hMe : M ≤ monthIdx e) (h1 : M ≠ monthIdx e) (h2 : M = monthIdx s) :
    contributedDays s e M =
      (daysInMonthAbs M : Int) - (s.day : Int) + 1 := by
  unfold contributedDays
  rw [if_neg (no_zero_branch s e he hMe), if_neg h1, if_pos h2]

lemma contributedDays_end (s e : Date) (he : e.valid) {M : Nat}
    (h1 : M = monthIdx e) (h2 : M ≠ monthIdx s) :
    contributedDays s e M = (e.day : Int) := by
  unfold contributedDays
  rw [if_neg (no_zero_branch s e he (Nat.le_of_eq h1)), if_pos h1, if_neg h2]

lemma contributedDays_single (s e : Date) (he : e.valid) {M : Nat}
    (h1 : M = monthIdx e) (h2 : M = monthIdx s) :
    contributedDays s e M = (e.day : Int) - (s.day : Int) + 1 := by
  unfold contributedDays
  rw [if_neg (no_zero_branch s e he (Nat.le_of_eq h1)), if_pos h1, if_pos h2]

/-- Telescoping sum of contributed days over the months from the start
month through a month `c` strictly before the end month: all days from
`start_date` through the last day of month `c`. -/
lemma sum_contrib_upto (s e : Date) (hs : s.valid) (he : e.valid)
    (c : Nat) (hac : monthIdx s ≤ c) :
    c < monthIdx e →
    ((monthRange (monthIdx s) c).map (contributedDays s e)).sum +
        (toDays s : Int) = (monthStartDays (c + 1) : Int) := by
  induction c, hac using Nat.le_induction with
  | base =>
    intro hce
    rw [monthRange_self]
    have hdm : daysInMonthAbs (monthIdx s) = daysInMonth s.year s.month :=
      daysInMonthAbs_monthIdx s hs
    have hC : contributedDays s e (monthIdx s) =
        (daysInMonthAbs (monthIdx s) : Int) - (s.day : Int) + 1 :=
      contributedDays_start s e he (by omega) (by omega) rfl
    have hmsucc := monthStartDays_succ (monthIdx s)
    have htd := toDays_cast s hs
    have hday := hs.2.2.2
    simp only [List.map_cons, List.map_nil, List.sum_cons, List.sum_nil, hC]
    omega
  | succ n hn ih =>
    intro hce
    have hsum := ih (by omega)
    rw [monthRange_succ _ _ (by omega), List.map_append, List.sum_append]
    have hC : contributedDays s e (n + 1) = (daysInMonthAbs (n + 1) : Int) :=
      contributedDays_middle s e he (by omega) (by omega) (by omega)
    have hmsucc := monthStartDays_succ (n + 1)
    simp only [List.map_cons, List.map_nil, List.sum_cons, List.sum_nil, hC]
    omega

/-- The per-row checksum identity: over the whole enumerated month range,
contributed days sum to the inclusive day count of the interval. -/
lemma sum_contrib (s e : Date) (hs : s.valid) (he : e.valid)
    (h : toDays s ≤ toDays e) :
    ((monthRange (monthIdx s) (monthIdx e)).map (contributedDays s e)).sum =
      (toDays e : Int) - (toDays s : Int) + 1 := by
  have hmi := monthIdx_le_of_toDays_le s e hs he h
  rcases Nat.eq_or_lt_of_le hmi with heq | hlt
  · rw [← heq, monthRange_self]
    have hC : contributedDays s e (monthIdx s) =
        (e.day : Int) - (s.day : Int) + 1 :=
      contributedDays_single s e he heq rfl
    have htds := toDays_cast s hs
    have htde := toDays_cast e he
    simp only [List.map_cons, List.map_nil, List.sum_cons, List.sum_nil, hC]
    rw [← heq] at htde
    omega
  · obtain ⟨n, hn⟩ : ∃ n, monthIdx e = n + 1 := ⟨monthIdx e - 1, by omega⟩
    rw [hn, monthRange_succ _ _ (by omega), List.map_append, List.sum_append]
    have hsum := sum_contrib_upto s e hs he n (by omega) (by omega)
    have hC : contributedDays s e (n + 1) = (e.day : Int) :=
      contributedDays_end s e he hn.symm (by omega)
    have htde := toDays_cast e he
    rw [hn] at htde
    simp only [List.map_cons, List.map_nil, List.sum_cons, List.sum_nil, hC]
    omega

/-- Every contributed-days value over the enumerated range of a
chronologically ordered row lies in `[1, 31]`. -/
lemma contrib_bounds (s e : Date) (hs : s.valid) (he : e.valid)
    (h : toDays s ≤ toDays e) {M : Nat}
    (hM : M ∈ monthRange (monthIdx s) (monthIdx e)) :
    1 ≤ contributedDays s e M ∧ contributedDays s e M ≤ 31 := by
  rw [mem_monthRange] at hM
  obtain ⟨h1, h2⟩ := hM
  have hdim := daysInMonthAbs_bounds M
  by_cases hMe : M = monthIdx e
  · by_cases hMs : M = monthIdx s
    · rw [contributedDays_single s e he hMe hMs]
      have htds := toDays_cast s hs
      have htde := toDays_cast e he
      have hmeq : monthIdx s = monthIdx e := by omega
      rw [hmeq] at htds
      have hed : e.day ≤ daysInMonth e.year e.month := he.2.2.2
      have hedm := daysInMonthAbs_monthIdx e he
      have hde := daysInMonthAbs_bounds (monthIdx e)
      have hsd := hs.2.2.1
      omega
    · rw [contributedDays_end s e he hMe hMs]
      have hed : e.day ≤ daysInMonth e.year e.month := he.2.2.2
      have hedm := daysInMonthAbs_monthIdx e he
      have hde := daysInMonthAbs_bounds (monthIdx e)
      have h3 := he.2.2.1
      omega
  · by_cases hMs : M = monthIdx s
    · rw [contributedDays_start s e he h2 hMe hMs]
      subst hMs
      have hsd1 := hs.2.2.1
      have hsd2 : s.day ≤ daysInMonth s.year s.month := hs.2.2.2
      have hsdm := daysInMonthAbs_monthIdx s hs
      omega
    · rw [contributedDays_middle s e he h2 hMe hMs]
      omega

/-! ## Helper lemmas about the Builder's primitives -/

lemma pyMinDates_foldl_spec (xs : List Date) (acc : Date) :
    (xs.foldl (fun a d => if toDays d < toDays a then d else a) acc ∈ acc :: xs) ∧
      (∀ y ∈ acc :: xs,
        toDays (xs.foldl (fun a d => if toDays d < toDays a then d else a) acc) ≤
          toDays y) := by
  induction xs generalizing acc with
  | nil => simp
  | cons z zs ih =>
    simp only [List.foldl_cons]
    by_cases hc : toDays z < toDays acc
    · rw [if_pos hc]
      obtain ⟨h1, h2⟩ := ih z
      constructor
      · simp only [List.mem_cons] at h1 ⊢
        tauto
      · intro y hy
        simp only [List.mem_cons] at hy
        rcases hy with rfl | rfl | hy
        · have := h2 z (by simp)
          omega
        · exact h2 y (by simp)
        · exact h2 y (by simp [hy])
    · rw [if_neg hc]
      obtain ⟨h1, h2⟩ := ih acc
      constructor
      · simp only [List.mem_cons] at h1 ⊢
        tauto
      · intro y hy
        simp only [List.mem_cons] at hy
        rcases hy with rfl | rfl | hy
        · exact h2 y (by simp)
        · have := h2 acc (by simp)
          omega
        · exact h2 y (by simp [hy])

/-- Python `min` over a non-empty list of dates returns an element that is
chronologically least. -/
lemma pyMinDates_spec (x : Date) (xs : List Date) :
    ∃ m, pyMinDates (x :: xs) = some m ∧ m ∈ x :: xs ∧
      ∀ y ∈ x :: xs, toDays m ≤ toDays y := by
  obtain ⟨h1, h2⟩ := pyMinDates_foldl_spec xs x
  exact ⟨_, rfl, h1, h2⟩

/-- `determine_end_date` raises only on a row with no terminal date at all,
and then with the fixed message of line 59 — in particular the message
never identifies the subject. -/
lemma determine_end_date_error (pr : String) (p c z : Option Date) (e : String)
    (h : determine_end_date pr p c z = .error e) :
    p = none ∧ c = none ∧ z = none ∧
      e = "Row with no primary, competing or censor date found" := by
  rcases p with _ | dp <;> rcases c with _ | dc <;> rcases z with _ | dz
  · refine ⟨rfl, rfl, rfl, ?_⟩
    have h2 := h
    simp only [determine_end_date, mkEvents] at h2
    simp at h2
    exact h2.symm
  · exfalso
    simpa [determine_end_date, mkEvents, pyMinDates] using h
  · exfalso
    simpa [determine_end_date, mkEvents, pyMinDates] using h
  · exfalso
    simpa [determine_end_date, mkEvents, pyMinDates] using h
  · exfalso
    simpa [determine_end_date, mkEvents, pyMinDates] using h
  · exfalso
    by_cases h1 : pr = "primary" <;> by_cases h2 : pr = "competing" <;>
      simp [determine_end_date, mkEvents, pyMinDates, h1, h2] at h
  · exfalso
    by_cases h1 : pr = "primary" <;> by_cases h2 : pr = "competing" <;>
      simp [determine_end_date, mkEvents, pyMinDates, h1, h2] at h
  · exfalso
    by_cases h1 : pr = "primary" <;> by_cases h2 : pr = "competing" <;>
      simp [determine_end_date, mkEvents, pyMinDates, h1, h2] at h

lemma dfApply_error (f : RawRow → Except String Date) (rows : List RawRow)
    (e : String) (h : dfApply f rows = .error e) :
    ∃ r ∈ rows, f r = .error e := by
  induction rows with
  | nil => simp [dfApply] at h
  | cons r rs ih =>
    unfold dfApply at h
    cases hf : f r with
    | error e1 =>
      rw [hf] at h
      exact ⟨r, by simp, by cases h; exact hf⟩
    | ok d =>
      rw [hf] at h
      cases hrest : dfApply f rs with
      | error e1 =>
        rw [hrest] at h
        cases h
        obtain ⟨r1, hr1, hfr1⟩ := ih hrest
        exact ⟨r1, by simp [hr1], hfr1⟩
      | ok ds =>
        rw [hrest] at h
        cases h

lemma dfApply_ok (f : RawRow → Except String Date) (rows : List RawRow)
    (ds : List Date) (h : dfApply f rows = .ok ds) :
    ∀ r ∈ rows, ∃ d, f r = .ok d := by
  induction rows generalizing ds with
  | nil => simp
  | cons r rs ih =>
    unfold dfApply at h
    cases hf : f r with
    | error e1 => rw [hf] at h; cases h
    | ok d =>
      rw [hf] at h
      cases hrest : dfApply f rs with
      | error e1 => rw [hrest] at h; cases h
      | ok ds1 =>
        intro r1 hr1
        rcases List.mem_cons.mp hr1 with rfl | hr1
        · exact ⟨d, hf⟩
        · exact ih ds1 hrest r1 hr1

/-- Membership in the accumulated monthly records. -/
lemma mem_monthlyRecords {cols : Option (List String)} {rows : List SurvRow}
    {rec : MonthlyRecord} :
    rec ∈ monthlyRecords cols rows ↔ ∃ r ∈ rows, rec ∈ rowRecords cols r := by
  induction rows with
  | nil => simp [monthlyRecords]
  | cons r rs ih =>
    simp only [monthlyRecords, List.mem_append, ih, List.mem_cons]
    constructor
    · rintro (h | ⟨r1, hr1, h⟩)
      · exact ⟨r, Or.inl rfl, h⟩
      · exact ⟨r1, Or.inr hr1, h⟩
    · rintro ⟨r1, rfl | hr1, h⟩
      · exact Or.inl h
      · exact Or.inr ⟨r1, hr1, h⟩

/-! ## Heap lemmas for the frame-effect claim -/

lemma heapGet_mem_keys {h : Heap} {r : Nat} {v : Frame}
    (hg : heapGet h r = some v) : r ∈ heapKeys h := by
  induction h with
  | nil => simp [heapGet] at hg
  | cons kv t ih =>
    unfold heapGet at hg
    by_cases hk : kv.1 = r
    · simp [heapKeys, hk.symm]
    · rw [if_neg hk] at hg
      simp only [heapKeys, List.map_cons, List.mem_cons]
      exact Or.inr (ih hg)

lemma mem_le_foldr_max (l : List Nat) (k : Nat) (hk : k ∈ l) :
    k ≤ l.foldr max 0 := by
  induction l with
  | nil => simp at hk
  | cons a t ih =>
    simp only [List.mem_cons] at hk
    simp only [List.foldr_cons]
    rcases hk with rfl | hk
    · omega
    · have := ih hk
      omega

lemma keys_lt_freshRef (h : Heap) (k : Nat) (hk : k ∈ heapKeys h) :
    k < freshRef h := by
  unfold freshRef
  have := mem_le_foldr_max (heapKeys h) k hk
  omega

lemma heapGet_heapSet_ne (h : Heap) (r w : Nat) (v : Frame) (hne : w ≠ r) :
    heapGet (heapSet h r v) w = heapGet h w := by
  induction h with
  | nil =>
    unfold heapSet heapGet
    rw [if_neg (by omega)]
    rfl
  | cons kv t ih =>
    unfold heapSet
    by_cases hk : kv.1 = r
    · simp only [hk, if_pos]
      unfold heapGet
      rw [if_neg (by omega), if_neg (by omega)]
    · rw [if_neg hk]
      unfold heapGet
      by_cases hw : kv.1 = w
      · rw [if_pos hw, if_pos hw]
      · rw [if_neg hw, if_neg hw]
        exact ih

lemma any_false_time_bounds (recs : List MonthlyRecord)
    (h31 : ¬ (recs.any fun rec => decide (31 < rec.time)) = true)
    (h1 : ¬ (recs.any fun rec => decide (rec.time < 1)) = true)
    {rec : MonthlyRecord} (hrec : rec ∈ recs) :
    1 ≤ rec.time ∧ rec.time ≤ 31 := by
  constructor
  · by_contra hc
    exact h1 (List.any_eq_true.mpr ⟨rec, hrec, decide_eq_true (by omega)⟩)
  · by_contra hc
    exact h31 (List.any_eq_true.mpr ⟨rec, hrec, decide_eq_true (by omega)⟩)

/-- The `additional_columns` default and the explicit empty list produce the
same per-row records (both are falsy at the record-building guard). -/
lemma monthlyRecords_none_eq_empty (rows : List SurvRow) :
    monthlyRecords none rows = monthlyRecords (some []) rows := by
  induction rows with
  | nil => rfl
  | cons r rs ih =>
    show rowRecords none r ++ monthlyRecords none rs = _
    rw [ih]
    rfl

/-! ## Claim theorems -/

/-- C3: for every input row with `start_date ≤ end_date`, the sum of `time`
across all monthly records the Expander emits for that row equals
`(end_date - start_date).days + 1`, the inclusive day count of the interval
(in particular also when the interval spans multiple calendar months). -/
theorem expander_row_time_sum (cols : Option (List String)) (r : SurvRow)
    (hs : r.start_date.valid) (he : r.end_date.valid)
    (h : toDays r.start_date ≤ toDays r.end_date) :
    ((rowRecords cols r).map fun rec => rec.time).sum =
      ((toDays r.end_date : Int) - (toDays r.start_date : Int)) + 1 := by
  unfold rowRecords
  rw [List.map_map]
  exact sum_contrib r.start_date r.end_date hs he h

/-- Witness for C3 at the spec's multi-month scenario shape
(Jan 15 to Mar 10, sum of times 17 + 28 + 10 = 55 = day difference + 1). -/
theorem expander_row_time_sum_witness :
    toDays (Date.mk 1 1 15) ≤ toDays (Date.mk 1 3 10) ∧
    ((rowRecords (some []) (SurvRow.mk 1 (Date.mk 1 1 15) (Date.mk 1 3 10) [])).map
        fun rec => rec.time).sum =
      ((toDays (Date.mk 1 3 10) : Int) - (toDays (Date.mk 1 1 15) : Int)) + 1 :=
  ⟨by decide,
   expander_row_time_sum (some []) (SurvRow.mk 1 (Date.mk 1 1 15) (Date.mk 1 3 10) [])
     (by decide) (by decide) (by decide)⟩

/-- C6: every record of a successfully returned Expander output has `time`
in `[1, 31]` (the post-condition assertions gate the output), and for every
chronologically ordered valid row no emitted record has `time` outside
`[1, 31]` (so the defensive 0-day branch cannot fire for such a row). -/
theorem expander_time_bounds :
    (∀ (rows : List SurvRow) (cols : Option (List String)) (chk : Option Int)
        (out : List MonthlyRecord),
        expand_to_monthly rows cols chk = .ok out →
        ∀ rec ∈ out, 1 ≤ rec.time ∧ rec.time ≤ 31) ∧
    (∀ (cols : Option (List String)) (r : SurvRow),
        r.start_date.valid → r.end_date.valid →
        toDays r.start_date ≤ toDays r.end_date →
        ∀ rec ∈ rowRecords cols r, 1 ≤ rec.time ∧ rec.time ≤ 31) := by
  constructor
  · intro rows cols chk out hok rec hrec
    rcases cols with _ | cs
    · simp [expand_to_monthly] at hok
    · simp only [expand_to_monthly] at hok
      split at hok
      · exact Except.noConfusion hok
      · split at hok
        · exact Except.noConfusion hok
        · split at hok
          · exact Except.noConfusion hok
          · rename_i h31 h1
            split at hok
            · split at hok
              · exact Except.noConfusion hok
              · simp only [Except.ok.injEq] at hok
                subst hok
                exact any_false_time_bounds _ h31 h1 hrec
            · simp only [Except.ok.injEq] at hok
              subst hok
              exact any_false_time_bounds _ h31 h1 hrec
  · intro cols r hs he hle rec hrec
    unfold rowRecords at hrec
    rcases List.mem_map.mp hrec with ⟨M, hM, rfl⟩
    exact contrib_bounds r.start_date r.end_date hs he hle hM

/-- Witness for C6: a concrete successful run and a concrete row, each with
all times within bounds. -/
theorem expander_time_bounds_witness :
    (∀ rec ∈ monthlyRecords (some [])
        [SurvRow.mk 1 (Date.mk 1 1 15) (Date.mk 1 1 20) []],
        1 ≤ rec.time ∧ rec.time ≤ 31) ∧
    (∀ rec ∈ rowRecords (some [])
        (SurvRow.mk 2 (Date.mk 1 1 15) (Date.mk 1 3 10) []),
        1 ≤ rec.time ∧ rec.time ≤ 31) :=
  ⟨expander_time_bounds.1 [SurvRow.mk 1 (Date.mk 1 1 15) (Date.mk 1 1 20) []]
      (some []) none _ rfl,
   expander_time_bounds.2 (some [])
      (SurvRow.mk 2 (Date.mk 1 1 15) (Date.mk 1 3 10) [])
      (by decide) (by decide) (by decide)⟩

/-- C7: a row whose start and end fall in the same calendar month (with
`start_date ≤ end_date`) yields exactly one record, with
`time = end day - start day + 1` and the month label of that month. -/
theorem expander_single_month (cols : Option (List String)) (r : SurvRow)
    (hs : r.start_date.valid) (he : r.end_date.valid)
    (hy : r.start_date.year = r.end_date.year)
    (hm : r.start_date.month = r.end_date.month)
    (hle : toDays r.start_date ≤ toDays r.end_date) :
    ∃ rec, rowRecords cols r = [rec] ∧
      rec.time = ((r.end_date.day : Int) - (r.start_date.day : Int)) + 1 ∧
      rec.month = monthLabel (monthIdx r.start_date) := by
  have hmi : monthIdx r.start_date = monthIdx r.end_date := by
    unfold monthIdx
    omega
  unfold rowRecords
  rw [← hmi, monthRange_self]
  refine ⟨_, rfl, ?_, rfl⟩
  show contributedDays r.start_date r.end_date (monthIdx r.start_date) = _
  exact contributedDays_single r.start_date r.end_date he hmi rfl

/-- Witness for C7 at the spec's concrete scenario: start 2021-01-15,
end 2021-01-20 gives one record with month string of January 2021 and
time 6. -/
theorem expander_single_month_witness :
    toDays (Date.mk 2021 1 15) ≤ toDays (Date.mk 2021 1 20) ∧
    ∃ rec, rowRecords (some [])
        (SurvRow.mk 7 (Date.mk 2021 1 15) (Date.mk 2021 1 20) []) = [rec] ∧
      rec.time = 6 ∧ rec.month = "Jan-21" := by
  have hle : toDays (Date.mk 2021 1 15) ≤ toDays (Date.mk 2021 1 20) := by decide
  refine ⟨hle, ?_⟩
  obtain ⟨rec, h1, h2, h3⟩ :=
    expander_single_month (some [])
      (SurvRow.mk 7 (Date.mk 2021 1 15) (Date.mk 2021 1 20) [])
      (by decide) (by decide) (by decide) (by decide) hle
  refine ⟨rec, h1, ?_, ?_⟩
  · rw [h2]
    decide
  · rw [h3]
    decide

/-- C2 (evidence of the inverted checksum comparison): on a run whose summed
`time` is 6, supplying `time_checksum = 6` makes the Expander raise the
checksum assertion, while supplying the non-matching checksum 7 lets the
run complete — the opposite of the specified compare-and-report-on-mismatch
behaviour. -/
theorem expander_checksum_inverted :
    expand_to_monthly [SurvRow.mk 1 (Date.mk 1 1 15) (Date.mk 1 1 20) []]
        (some []) (some 6) = .error "Process failure: Checksum" ∧
    expand_to_monthly [SurvRow.mk 1 (Date.mk 1 1 15) (Date.mk 1 1 20) []]
        (some []) (some 7) =
      .ok (monthlyRecords (some [])
        [SurvRow.mk 1 (Date.mk 1 1 15) (Date.mk 1 1 20) []]) :=
  ⟨rfl, rfl⟩

/-- C8: with `additional_columns` left at its default `None`, the Expander
fails at the output column-reordering step (unpacking `*None` is a
`TypeError`) for every input, even though the per-row computation is the
same one that succeeds with an explicit empty column list. -/
theorem expander_default_cols_unusable (rows : List SurvRow) (hne : rows ≠ [])
    (chk : Option Int) :
    expand_to_monthly rows none chk =
      .error "TypeError: argument of type NoneType is not iterable" ∧
    monthlyRecords none rows = monthlyRecords (some []) rows :=
  ⟨rfl, monthlyRecords_none_eq_empty rows⟩

/-- Witness for C8 on a concrete non-empty input. -/
theorem expander_default_cols_unusable_witness :
    ([SurvRow.mk 1 (Date.mk 1 1 15) (Date.mk 1 1 20) []] : List SurvRow) ≠ [] ∧
    (expand_to_monthly [SurvRow.mk 1 (Date.mk 1 1 15) (Date.mk 1 1 20) []] none none =
        .error "TypeError: argument of type NoneType is not iterable" ∧
      monthlyRecords none [SurvRow.mk 1 (Date.mk 1 1 15) (Date.mk 1 1 20) []] =
        monthlyRecords (some []) [SurvRow.mk 1 (Date.mk 1 1 15) (Date.mk 1 1 20) []]) :=
  ⟨by decide,
   expander_default_cols_unusable [SurvRow.mk 1 (Date.mk 1 1 15) (Date.mk 1 1 20) []]
     (by decide) none⟩

/-- C1: for a subject with a non-empty candidate set, `end_date` is the
minimum date among the surviving candidates: under priority `first` the
survivors are all present dates; under priority `primary` (resp.
`competing`) with both event dates present, the survivors are the primary
(resp. competing) date together with the censor date if present — so the
dropped category cannot win even when earlier, but the censor date still
can. -/
theorem builder_end_date_is_min (p c z : Option Date) :
    (((mkEvents p c z).map fun kv => kv.2) ≠ [] →
      ∃ d, determine_end_date "first" p c z = .ok d ∧
        d ∈ ((mkEvents p c z).map fun kv => kv.2) ∧
        ∀ x ∈ ((mkEvents p c z).map fun kv => kv.2), toDays d ≤ toDays x) ∧
    (∀ dp dc, p = some dp → c = some dc →
      ∃ d, determine_end_date "primary" p c z = .ok d ∧
        d ∈ dp :: z.toList ∧ ∀ x ∈ dp :: z.toList, toDays d ≤ toDays x) ∧
    (∀ dp dc, p = some dp → c = some dc →
      ∃ d, determine_end_date "competing" p c z = .ok d ∧
        d ∈ dc :: z.toList ∧ ∀ x ∈ dc :: z.toList, toDays d ≤ toDays x) := by
  refine ⟨?_, ?_, ?_⟩
  · intro hne
    rcases p with _ | dp <;> rcases c with _ | dc <;> rcases z with _ | dz
    · simp [mkEvents] at hne
    · obtain ⟨m, hm, hmem, hb⟩ := pyMinDates_spec dz []
      refine ⟨m, by simp [determine_end_date, mkEvents, hm], ?_, ?_⟩
      · simpa [mkEvents] using hmem
      · intro x hx
        exact hb x (by simpa [mkEvents] using hx)
    · obtain ⟨m, hm, hmem, hb⟩ := pyMinDates_spec dc []
      refine ⟨m, by simp [determine_end_date, mkEvents, hm], ?_, ?_⟩
      · simpa [mkEvents] using hmem
      · intro x hx
        exact hb x (by simpa [mkEvents] using hx)
    · obtain ⟨m, hm, hmem, hb⟩ := pyMinDates_spec dc [dz]
      refine ⟨m, by simp [determine_end_date, mkEvents, hm], ?_, ?_⟩
      · simpa [mkEvents] using hmem
      · intro x hx
        exact hb x (by simpa [mkEvents] using hx)
    · obtain ⟨m, hm, hmem, hb⟩ := pyMinDates_spec dp []
      refine ⟨m, by simp [determine_end_date, mkEvents, hm], ?_, ?_⟩
      · simpa [mkEvents] using hmem
      · intro x hx
        exact hb x (by simpa [mkEvents] using hx)
    · obtain ⟨m, hm, hmem, hb⟩ := pyMinDates_spec dp [dz]
      refine ⟨m, by simp [determine_end_date, mkEvents, hm], ?_, ?_⟩
      · simpa [mkEvents] using hmem
      · intro x hx
        exact hb x (by simpa [mkEvents] using hx)
    · obtain ⟨m, hm, hmem, hb⟩ := pyMinDates_spec dp [dc]
      refine ⟨m, by simp [determine_end_date, mkEvents, hm], ?_, ?_⟩
      · simpa [mkEvents] using hmem
      · intro x hx
        exact hb x (by simpa [mkEvents] using hx)
    · obtain ⟨m, hm, hmem, hb⟩ := pyMinDates_spec dp [dc, dz]
      refine ⟨m, by simp [determine_end_date, mkEvents, hm], ?_, ?_⟩
      · simpa [mkEvents] using hmem
      · intro x hx
        exact hb x (by simpa [mkEvents] using hx)
  · rintro dp dc rfl rfl
    rcases z with _ | dz
    · obtain ⟨m, hm, hmem, hb⟩ := pyMinDates_spec dp []
      refine ⟨m, by simp [determine_end_date, mkEvents, hm], ?_, ?_⟩
      · simpa using hmem
      · intro x hx
        exact hb x (by simpa using hx)
    · obtain ⟨m, hm, hmem, hb⟩ := pyMinDates_spec dp [dz]
      refine ⟨m, by simp [determine_end_date, mkEvents, hm], ?_, ?_⟩
      · simpa using hmem
      · intro x hx
        exact hb x (by simpa using hx)
  · rintro dp dc rfl rfl
    rcases z with _ | dz
    · obtain ⟨m, hm, hmem, hb⟩ := pyMinDates_spec dc []
      refine ⟨m, by simp [determine_end_date, mkEvents, hm], ?_, ?_⟩
      · simpa using hmem
      · intro x hx
        exact hb x (by simpa using hx)
    · obtain ⟨m, hm, hmem, hb⟩ := pyMinDates_spec dc [dz]
      refine ⟨m, by simp [determine_end_date, mkEvents, hm], ?_, ?_⟩
      · simpa using hmem
      · intro x hx
        exact hb x (by simpa using hx)

/-- Witness for C1 at the spec's concrete scenario shape (primary May 1,
competing Apr 20, censor Jun 1, small years). -/
theorem builder_end_date_is_min_witness :
    (((mkEvents (some (Date.mk 1 5 1)) (some (Date.mk 1 4 20))
        (some (Date.mk 1 6 1))).map fun kv => kv.2) ≠ []) ∧
    (∃ d, determine_end_date "first" (some (Date.mk 1 5 1))
        (some (Date.mk 1 4 20)) (some (Date.mk 1 6 1)) = .ok d ∧
      d ∈ ((mkEvents (some (Date.mk 1 5 1)) (some (Date.mk 1 4 20))
        (some (Date.mk 1 6 1))).map fun kv => kv.2) ∧
      ∀ x ∈ ((mkEvents (some (Date.mk 1 5 1)) (some (Date.mk 1 4 20))
        (some (Date.mk 1 6 1))).map fun kv => kv.2), toDays d ≤ toDays x) ∧
    (∃ d, determine_end_date "primary" (some (Date.mk 1 5 1))
        (some (Date.mk 1 4 20)) (some (Date.mk 1 6 1)) = .ok d ∧
      d ∈ Date.mk 1 5 1 :: (some (Date.mk 1 6 1)).toList ∧
      ∀ x ∈ Date.mk 1 5 1 :: (some (Date.mk 1 6 1)).toList,
        toDays d ≤ toDays x) :=
  ⟨by decide,
   (builder_end_date_is_min (some (Date.mk 1 5 1)) (some (Date.mk 1 4 20))
      (some (Date.mk 1 6 1))).1 (by decide),
   (builder_end_date_is_min (some (Date.mk 1 5 1)) (some (Date.mk 1 4 20))
      (some (Date.mk 1 6 1))).2.1 (Date.mk 1 5 1) (Date.mk 1 4 20) rfl rfl⟩

/-- C4: every record of a successful build satisfies
`start_date ≤ end_date` with `time_at_risk` the (non-negative) day
difference, and whenever the computed end dates violate the ordering on
some row the whole build returns the fail-fast assertion error instead of
any partial result. -/
theorem builder_end_order_invariant :
    (∀ (pr : String) (cols : Option (List String)) (rows : List RawRow)
        (out : List SurvRecord),
        create_survival_dataframe pr cols rows = .ok out →
        ∀ rec ∈ out, toDays rec.start_date ≤ toDays rec.end_date ∧
          rec.time_at_risk =
            (toDays rec.end_date : Int) - (toDays rec.start_date : Int) ∧
          0 ≤ rec.time_at_risk) ∧
    (∀ (pr : String) (cols : Option (List String)) (rows : List RawRow)
        (ends : List Date),
        pr ∈ (["first", "competing", "primary"] : List String) →
        dfApply (fun r => determine_end_date pr r.primary r.competing r.censor)
          rows = .ok ends →
        ((rows.zip ends).any fun q => decide (toDays q.2 < toDays q.1.start))
          = true →
        create_survival_dataframe pr cols rows =
          .error "Error calculating end dates: End dates before start") := by
  constructor
  · intro pr cols rows out hok rec hrec
    unfold create_survival_dataframe at hok
    by_cases hp : pr ∈ (["first", "competing", "primary"] : List String)
    · rw [if_pos hp] at hok
      cases hD : dfApply
          (fun r => determine_end_date pr r.primary r.competing r.censor)
          rows with
      | error e =>
        simp only [hD] at hok
        exact Except.noConfusion hok
      | ok ends =>
        simp only [hD] at hok
        split at hok
        · exact Except.noConfusion hok
        · rename_i hAny
          simp only [Except.ok.injEq] at hok
          subst hok
          rcases List.mem_map.mp hrec with ⟨q, hq, rfl⟩
          have hge : ¬ (toDays q.2 < toDays q.1.start) := fun hlt =>
            hAny (List.any_eq_true.mpr ⟨q, hq, decide_eq_true hlt⟩)
          refine ⟨by simpa [buildRecord] using by omega, rfl, ?_⟩
          show (0 : Int) ≤ (toDays q.2 : Int) - (toDays q.1.start : Int)
          omega
    · rw [if_neg hp] at hok
      exact Except.noConfusion hok
  · intro pr cols rows ends hp hD hAny
    unfold create_survival_dataframe
    rw [if_pos hp]
    simp only [hD]
    rw [if_pos hAny]

/-- Witness for C4: a concrete successful build whose single record
satisfies the invariant, and a concrete corrupted input (censor date before
the start date) on which the build aborts with the assertion error. -/
theorem builder_end_order_invariant_witness :
    (∀ rec ∈ [buildRecord []
        (RawRow.mk 1 (Date.mk 1 1 5) none none (some (Date.mk 1 1 10)) [])
        (Date.mk 1 1 10)],
        toDays rec.start_date ≤ toDays rec.end_date ∧
        rec.time_at_risk =
          (toDays rec.end_date : Int) - (toDays rec.start_date : Int) ∧
        0 ≤ rec.time_at_risk) ∧
    create_survival_dataframe "first" none
        [RawRow.mk 2 (Date.mk 1 2 1) none none (some (Date.mk 1 1 1)) []] =
      .error "Error calculating end dates: End dates before start" :=
  ⟨builder_end_order_invariant.1 "first" none
      [RawRow.mk 1 (Date.mk 1 1 5) none none (some (Date.mk 1 1 10)) []] _ rfl,
   builder_end_order_invariant.2 "first" none
      [RawRow.mk 2 (Date.mk 1 2 1) none none (some (Date.mk 1 1 1)) []]
      [Date.mk 1 1 1] (by decide) rfl (by decide)⟩

/-- C5 counterexample: the error raised for a row with no terminal date is
the fixed string of line 59 and does not identify the subject — two batches
differing only in the subject identifier produce the identical error
value. -/
theorem builder_missing_terminal_counterexample :
    create_survival_dataframe "first" none
        [RawRow.mk 101 (Date.mk 1 1 5) none none none []] =
      .error "Row with no primary, competing or censor date found" ∧
    create_survival_dataframe "first" none
        [RawRow.mk 202 (Date.mk 1 1 5) none none none []] =
      .error "Row with no primary, competing or censor date found" :=
  ⟨rfl, rfl⟩

/-- C5 (amended): a batch containing a row with no primary, competing or
censor date makes the Builder fail with the fatal `ValueError` of line 59,
aborting the whole batch rather than skipping the row; the error carries a
fixed message and does not identify the subject. -/
theorem builder_missing_terminal_aborts (pr : String)
    (cols : Option (List String)) (rows : List RawRow)
    (hp : pr ∈ (["first", "competing", "primary"] : List String))
    (hr : ∃ r ∈ rows, r.primary = none ∧ r.competing = none ∧ r.censor = none) :
    create_survival_dataframe pr cols rows =
      .error "Row with no primary, competing or censor date found" := by
  obtain ⟨r, hrm, hp1, hc1, hz1⟩ := hr
  unfold create_survival_dataframe
  rw [if_pos hp]
  cases hD : dfApply
      (fun r => determine_end_date pr r.primary r.competing r.censor) rows with
  | error e =>
    obtain ⟨r1, _, hfr1⟩ := dfApply_error _ _ _ hD
    obtain ⟨_, _, _, he⟩ := determine_end_date_error pr _ _ _ _ hfr1
    subst he
    rfl
  | ok ends =>
    exfalso
    obtain ⟨d, hd⟩ := dfApply_ok _ _ _ hD r hrm
    rw [hp1, hc1, hz1] at hd
    simp [determine_end_date, mkEvents] at hd

/-- Witness for C5's amended theorem on a concrete batch. -/
theorem builder_missing_terminal_aborts_witness :
    ("first" ∈ (["first", "competing", "primary"] : List String)) ∧
    (∃ r ∈ [RawRow.mk 7 (Date.mk 1 1 5) none none none []],
        r.primary = none ∧ r.competing = none ∧ r.censor = none) ∧
    create_survival_dataframe "first" none
        [RawRow.mk 7 (Date.mk 1 1 5) none none none []] =
      .error "Row with no primary, competing or censor date found" :=
  ⟨by decide, by decide,
   builder_missing_terminal_aborts "first" none
     [RawRow.mk 7 (Date.mk 1 1 5) none none none []] (by decide) (by decide)⟩

/-- C9: a priority value outside the three admitted strings makes the
Builder fail with the argument-check assertion, before and independently of
any row processing — the result is the same error for every input table,
and no output is produced. -/
theorem builder_invalid_priority (pr : String)
    (h : pr ∉ (["first", "competing", "primary"] : List String)) :
    ∀ (cols : Option (List String)) (rows : List RawRow),
      create_survival_dataframe pr cols rows =
        .error ("Unexpected argument " ++ pr) := by
  intro cols rows
  unfold create_survival_dataframe
  rw [if_neg h]

/-- Witness for C9 with a concrete invalid priority. -/
theorem builder_invalid_priority_witness :
    ("last" ∉ (["first", "competing", "primary"] : List String)) ∧
    create_survival_dataframe "last" none
        [RawRow.mk 1 (Date.mk 1 1 5) none none (some (Date.mk 1 1 10)) []] =
      .error "Unexpected argument last" :=
  ⟨by decide,
   builder_invalid_priority "last" (by decide) none
     [RawRow.mk 1 (Date.mk 1 1 5) none none (some (Date.mk 1 1 10)) []]⟩

/-- C10: the Builder never mutates the caller's frame: in the heap model it
writes only to the fresh reference allocated by the deep copy of line 28,
so after a successful or failed build the input reference still holds the
original frame, and the returned result is the pure function of the input
frame's value. -/
theorem builder_no_mutation (h : Heap) (refIn : Nat) (pr : String)
    (cols : Option (List String)) (d : List RawRow)
    (hin : heapGet h refIn = some (Frame.raw d)) :
    heapGet (create_survival_stateful h refIn pr cols).1 refIn =
      some (Frame.raw d) ∧
    (create_survival_stateful h refIn pr cols).2 =
      create_survival_dataframe pr cols d := by
  have hne : refIn ≠ freshRef h := by
    have := keys_lt_freshRef h refIn (heapGet_mem_keys hin)
    omega
  simp only [create_survival_stateful, hin]
  cases hC : create_survival_dataframe pr cols d with
  | error e =>
    simp only [hC]
    constructor
    · rw [heapGet_heapSet_ne h (freshRef h) refIn _ hne]
      exact hin
    · trivial
  | ok out =>
    simp only [hC]
    constructor
    · rw [heapGet_heapSet_ne _ (freshRef h) refIn _ hne,
        heapGet_heapSet_ne h (freshRef h) refIn _ hne]
      exact hin
    · trivial

/-- Witness for C10 on a concrete one-reference heap. -/
theorem builder_no_mutation_witness :
    heapGet [(0, Frame.raw [RawRow.mk 1 (Date.mk 1 1 5) none none
        (some (Date.mk 1 1 10)) []])] 0 =
      some (Frame.raw [RawRow.mk 1 (Date.mk 1 1 5) none none
        (some (Date.mk 1 1 10)) []]) ∧
    (heapGet (create_survival_stateful
        [(0, Frame.raw [RawRow.mk 1 (Date.mk 1 1 5) none none
          (some (Date.mk 1 1 10)) []])] 0 "first" none).1 0 =
      some (Frame.raw [RawRow.mk 1 (Date.mk 1 1 5) none none
        (some (Date.mk 1 1 10)) []]) ∧
    (create_survival_stateful
        [(0, Frame.raw [RawRow.mk 1 (Date.mk 1 1 5) none none
          (some (Date.mk 1 1 10)) []])] 0 "first" none).2 =
      create_survival_dataframe "first" none
        [RawRow.mk 1 (Date.mk 1 1 5) none none (some (Date.mk 1 1 10)) []]) :=
  ⟨rfl,
   builder_no_mutation
     [(0, Frame.raw [RawRow.mk 1 (Date.mk 1 1 5) none none
       (some (Date.mk 1 1 10)) []])] 0 "first" none
     [RawRow.mk 1 (Date.mk 1 1 5) none none (some (Date.mk 1 1 10)) []] rfl⟩

end MelodyDummy
